import Mathlib

/-!
Shallow embedding of the nex node core: the firecracker process manager
(internal/node/processmanager/firecracker_procman.go), the older machine
manager (nexnode machinemanager source), and the node-side agent client
(internal/agent-api/client.go).  Machine integers are modelled as Nat or
Int, with uint32 wraparound made explicit where the source relies on
atomic uint32 arithmetic.  External collaborators (the NATS bus, the VMM
driver, JSON codecs, clocks) enter as explicit parameters so that every
definition stays executable.
-/

/-- OpenTelemetry counters touched by the process manager.  Each field models
the attribute-free series of one counter; the source also mirrors each add
onto a namespace-labelled series of the same counter with the same delta. -/
structure Telemetry where
  allocatedVCPU : Int
  allocatedMemory : Int
  vmCount : Int
  workloadCount : Int
  deployedBytes : Int
deriving Repr, DecidableEq

/-- Fields of agentapi.AgentWorkloadInfo read by the process manager:
WorkloadName, Namespace, WorkloadType, TotalBytes and Essential.  Namespace
is a pointer in the source and is dereferenced unconditionally by
PrepareWorkload, so only requests carrying a namespace reach that code; it is
therefore modelled as a plain string. -/
structure AgentWorkloadInfo where
  workloadName : Option String
  nsName : String
  workloadType : String
  totalBytes : Int
  essential : Option Bool
deriving Repr, DecidableEq

/-- One live firecracker VM as seen by the new process manager.  vcpuCount and
memSizeMib model machine.Cfg.MachineCfg.VcpuCount and MemSizeMib. -/
structure RunningFirecracker where
  vmmID : String
  ip : String
  vcpuCount : Int
  memSizeMib : Int
  deployRequest : Option AgentWorkloadInfo
  nsName : String
  workloadStarted : Nat
deriving Repr, DecidableEq

/-- Association-list lookup, modelling a Go map read. -/
def lookupA {α : Type} : List (String × α) → String → Option α
  | [], _ => none
  | p :: t, k => if p.1 == k then some p.2 else lookupA t k

/-- Association-list insert-or-replace, modelling a Go map write. -/
def insertA {α : Type} (l : List (String × α)) (k : String) (v : α) : List (String × α) :=
  if (l.find? (fun p => p.1 == k)).isSome then
    l.map (fun p => if p.1 == k then (k, v) else p)
  else
    (k, v) :: l

/-- Update the value stored under a key when present, modelling a mutation
performed through a pointer that the map shares. -/
def updateA {α : Type} (l : List (String × α)) (k : String) (v : α) : List (String × α) :=
  l.map (fun p => if p.1 == k then (k, v) else p)

/-- Association-list delete, modelling a Go map delete. -/
def eraseA {α : Type} (l : List (String × α)) (k : String) : List (String × α) :=
  l.filter (fun p => p.1 != k)

namespace FCPM

/-- State of a FirecrackerProcessManager.  closing models the atomic uint32
field and is kept below 2^32; poolVMs holds the buffered contents of the warm
channel and poolClosed whether close(poolVMs) has run.  shutdownIds records
every vm.shutdown() invocation and teardownRuns counts executions of the Stop
teardown body; both are ghost observers that no operation reads. -/
structure PMState where
  closing : Nat
  machinePoolSize : Nat
  allVMs : List (String × RunningFirecracker)
  poolVMs : List RunningFirecracker
  poolClosed : Bool
  stopMutexKeys : List String
  deployRequests : List (String × AgentWorkloadInfo)
  t : Telemetry
  shutdownIds : List String
  teardownRuns : Nat
deriving Repr, DecidableEq

/-- NewFirecrackerProcessManager: empty maps, a warm channel of capacity
config.MachinePoolSize, zeroed counters. -/
def NewFirecrackerProcessManager (poolSize : Nat) : PMState :=
  { closing := 0
    machinePoolSize := poolSize
    allVMs := []
    poolVMs := []
    poolClosed := false
    stopMutexKeys := []
    deployRequests := []
    t := { allocatedVCPU := 0, allocatedMemory := 0, vmCount := 0,
           workloadCount := 0, deployedBytes := 0 }
    shutdownIds := []
    teardownRuns := 0 }

/-- Environment of one iteration of the Start run loop: the root context,
uuid.NewRandom, natsint.CreateCredentials, createAndStartVM (returning the
vcpu count and memory size of the booted machine plus its ip), Seed and
setMetadata.  Errors carry no data because the source only logs them. -/
structure FillEnv where
  ctxDone : Bool
  uuid : Except Unit String
  creds : Except Unit Unit
  createVM : Except Unit (Int × Int)
  ip : String
  seed : Except Unit Unit
  setMeta : Except Unit Unit

/-- Outcome of one iteration of the Start run loop. -/
inductive FillResult
  | exited
  | slept
  | skipped
  | enqueued (vmmID : String)
deriving Repr, DecidableEq

/-- The uuid, credential, VMM-create, seed and metadata pipeline of one fill
iteration.  Every failure is logged in the source and yields none here. -/
def fillAttempt (env : FillEnv) : Option RunningFirecracker :=
  match env.uuid with
  | .error _ => none
  | .ok vmmID =>
    match env.creds with
    | .error _ => none
    | .ok _ =>
      match env.createVM with
      | .error _ => none
      | .ok mcfg =>
        match env.seed with
        | .error _ => none
        | .ok _ =>
          match env.setMeta with
          | .error _ => none
          | .ok _ =>
            some { vmmID := vmmID, ip := env.ip, vcpuCount := mcfg.1,
                   memSizeMib := mcfg.2, deployRequest := none,
                   nsName := "", workloadStarted := 0 }

/-- One iteration of the Start run loop.  The loop exits when stopping() or
the root context is done; sleeps when the warm channel is full; skips the
iteration on any pipeline failure; otherwise registers the VM in allVMs and
stopMutex, bumps VmCounter, and enqueues the handle onto the warm channel
(the fullness check above guarantees a free slot for the send). -/
def FillIteration (s : PMState) (env : FillEnv) : PMState × FillResult :=
  if 0 < s.closing then (s, .exited)
  else if env.ctxDone then (s, .exited)
  else if s.poolVMs.length == s.machinePoolSize then (s, .slept)
  else
    match fillAttempt env with
    | none => (s, .skipped)
    | some vm =>
      ({ s with
          allVMs := insertA s.allVMs vm.vmmID vm
          stopMutexKeys := vm.vmmID :: s.stopMutexKeys
          t := { s.t with vmCount := s.t.vmCount + 1 }
          poolVMs := s.poolVMs ++ [vm] },
       .enqueued vm.vmmID)

/-- PrepareWorkload: receive from the warm channel (none when the receive
would block on an open empty channel; the not-found error when the channel is
closed and drained), stamp the VM with the deploy request, record the request,
and add the vcpu and memory of the machine to the allocated counters.  The
same heap object sits in allVMs, so its entry sees the mutation. -/
def PrepareWorkload (s : PMState) (_workloadId : String)
    (deployRequest : AgentWorkloadInfo) (now : Nat) :
    Option (PMState × Option String) :=
  match s.poolVMs with
  | [] =>
    if s.poolClosed then
      some (s, some "could not prepare workload, no available firecracker VM")
    else
      none
  | vm :: rest =>
    some
      ({ s with
          poolVMs := rest
          allVMs := updateA s.allVMs vm.vmmID
            { vm with deployRequest := some deployRequest,
                      nsName := deployRequest.nsName, workloadStarted := now }
          deployRequests := insertA s.deployRequests vm.vmmID deployRequest
          t := { s.t with
                  allocatedVCPU := s.t.allocatedVCPU + vm.vcpuCount
                  allocatedMemory := s.t.allocatedMemory + vm.memSizeMib } },
       none)

/-- StopProcess: error when the id is not registered; otherwise shut the VM
down, remove it from allVMs, deployRequests and stopMutex, decrement the
workload and deployed-byte counters when a deploy request is present, and
decrement the vm, vcpu and memory counters. -/
def StopProcess (s : PMState) (workloadID : String) : PMState × Option String :=
  match lookupA s.allVMs workloadID with
  | none => (s, some ("failed to stop machine " ++ workloadID))
  | some vm =>
    ({ s with
        shutdownIds := s.shutdownIds ++ [workloadID]
        allVMs := eraseA s.allVMs workloadID
        deployRequests := eraseA s.deployRequests workloadID
        stopMutexKeys := s.stopMutexKeys.filter (fun k => k != workloadID)
        t := { allocatedVCPU := s.t.allocatedVCPU - vm.vcpuCount
               allocatedMemory := s.t.allocatedMemory - vm.memSizeMib
               vmCount := s.t.vmCount - 1
               workloadCount :=
                 s.t.workloadCount -
                   (match vm.deployRequest with | some _ => 1 | none => 0)
               deployedBytes :=
                 s.t.deployedBytes -
                   (match vm.deployRequest with
                    | some r => r.totalBytes
                    | none => 0) } },
     none)

/-- EnterLameDuck: set Essential to false on every stored deploy request (the
request objects are shared by pointer with the VM handles) and return nil.
Nothing else is touched: in particular the closing flag stays put. -/
def EnterLameDuck (s : PMState) : PMState :=
  { s with
      deployRequests :=
        s.deployRequests.map (fun p => (p.1, { p.2 with essential := some false })) }

/-- Teardown body of Stop: close the warm channel, StopProcess every
registered VM (ignoring per-VM errors), clean sockets.  teardownRuns is the
ghost execution counter of this body. -/
def teardown (s : PMState) : PMState :=
  let s1 := { s with poolClosed := true, teardownRuns := s.teardownRuns + 1 }
  (s1.allVMs.map Prod.fst).foldl (fun acc vmID => (StopProcess acc vmID).1) s1

/-- Modulus of the atomic uint32 closing counter. -/
def UINT32MOD : Nat := 4294967296

/-- Stop: atomic.AddUint32 on closing (wrapping at 2^32); the teardown body
runs exactly when the incremented value equals 1.  The source returns nil on
every call. -/
def Stop (s : PMState) : PMState :=
  if (s.closing + 1) % UINT32MOD == 1 then
    teardown { s with closing := (s.closing + 1) % UINT32MOD }
  else
    { s with closing := (s.closing + 1) % UINT32MOD }

/-- n successive calls to Stop. -/
def StopN : Nat → PMState → PMState
  | 0, s => s
  | n + 1, s => Stop (StopN n s)

/-- States reachable from a freshly constructed manager under any interleaving
of fill-loop iterations, PrepareWorkload, StopProcess, EnterLameDuck and
Stop calls. -/
inductive Reach : Nat → PMState → Prop
  | init (poolSize : Nat) : Reach poolSize (NewFirecrackerProcessManager poolSize)
  | fill {n : Nat} {s s2 : PMState} {env : FillEnv} {r : FillResult} :
      Reach n s → FillIteration s env = (s2, r) → Reach n s2
  | prep {n : Nat} {s s2 : PMState} {wid : String} {req : AgentWorkloadInfo}
      {now : Nat} {e : Option String} :
      Reach n s → PrepareWorkload s wid req now = some (s2, e) → Reach n s2
  | stopOne {n : Nat} {s s2 : PMState} {wid : String} {e : Option String} :
      Reach n s → StopProcess s wid = (s2, e) → Reach n s2
  | lame {n : Nat} {s : PMState} : Reach n s → Reach n (EnterLameDuck s)
  | stopAll {n : Nat} {s : PMState} : Reach n s → Reach n (Stop s)

end FCPM

/-- Fields of controlapi.RunRequest read by DispatchWork: WorkloadType and
WorkloadEnvironment. -/
structure RunRequest where
  workloadType : String
  workloadEnvironment : List (String × String)
deriving Repr, DecidableEq

namespace MM

/-- One live firecracker VM as seen by the older machine manager. -/
structure MMRunningFirecracker where
  vmmID : String
  ip : String
  nsName : String
  workloadStarted : Nat
  workloadSpec : Option RunRequest
deriving Repr, DecidableEq

/-- State of a MachineManager: the allVms map, the buffered contents of the
warmVms channel together with its capacity, the handshake map, and a ghost
record of shutDown() invocations. -/
structure MMState where
  machinePoolSize : Nat
  warmCap : Nat
  allVms : List (String × MMRunningFirecracker)
  warmVms : List MMRunningFirecracker
  handshakes : List (String × String)
  shutdownIds : List String
deriving Repr, DecidableEq

/-- NewMachineManager: empty maps and a warm channel whose capacity is
config.MachinePoolSize - 1.  The constructor refuses configurations that fail
Validate, which requires a pool size of at least 1. -/
def NewMachineManager (poolSize : Nat) : MMState :=
  { machinePoolSize := poolSize
    warmCap := poolSize - 1
    allVms := []
    warmVms := []
    handshakes := []
    shutdownIds := [] }

/-- Environment of one fillPool iteration: the root context and
createAndStartVM. -/
structure MMFillEnv where
  ctxDone : Bool
  createVM : Except Unit MMRunningFirecracker

/-- Outcome of one fillPool iteration.  panicked models the panic(err) the
source raises when createAndStartVM fails; the panic happens inside the
goroutine running fillPool and brings the node down.  blocked models a send
that waits because the channel buffer is full. -/
inductive MMFillResult
  | exited
  | panicked
  | enqueued (vmmID : String)
  | blocked
deriving Repr, DecidableEq

/-- One iteration of fillPool: exit when the root context is cancelled; panic
when createAndStartVM fails; otherwise send the VM onto the warm channel and,
once the send completes, register it in allVms. -/
def fillPoolIteration (m : MMState) (env : MMFillEnv) : MMState × MMFillResult :=
  if env.ctxDone then (m, .exited)
  else
    match env.createVM with
    | .error _ => (m, .panicked)
    | .ok vm =>
      if m.warmVms.length < m.warmCap then
        ({ m with
            warmVms := m.warmVms ++ [vm]
            allVms := insertA m.allVms vm.vmmID vm },
         .enqueued vm.vmmID)
      else (m, .blocked)

/-- TakeFromPool: receive from the warm channel; none when the receive would
block.  The registration of the taken VM in allVms is commented out in the
source. -/
def TakeFromPool (m : MMState) : Option (MMState × MMRunningFirecracker) :=
  match m.warmVms with
  | [] => none
  | vm :: rest => some ({ m with warmVms := rest }, vm)

/-- StopMachine: error when the id is unknown, otherwise shut the VM down and
delete its map entry. -/
def StopMachine (m : MMState) (vmId : String) : MMState × Option String :=
  match lookupA m.allVms vmId with
  | none => (m, some "no such workload")
  | some _ =>
    ({ m with
        shutdownIds := m.shutdownIds ++ [vmId]
        allVms := eraseA m.allVms vmId },
     none)

/-- MachineManager.Stop: cancel the root context, shut down every VM in
allVms (entries are not deleted), then drain and shut down the leftovers in
the warm channel. -/
def MMStop (m : MMState) : MMState :=
  { m with
      shutdownIds :=
        m.shutdownIds ++ m.allVms.map Prod.fst ++ m.warmVms.map MMRunningFirecracker.vmmID
      warmVms := [] }

/-- States reachable from a validated machine manager under fillPool
iterations, TakeFromPool, StopMachine and Stop calls. -/
inductive Reach : Nat → MMState → Prop
  | init (poolSize : Nat) : 1 ≤ poolSize → Reach poolSize (NewMachineManager poolSize)
  | fill {n : Nat} {m m2 : MMState} {env : MMFillEnv} {r : MMFillResult} :
      Reach n m → fillPoolIteration m env = (m2, r) → Reach n m2
  | take {n : Nat} {m m2 : MMState} {vm : MMRunningFirecracker} :
      Reach n m → TakeFromPool m = some (m2, vm) → Reach n m2
  | stopOne {n : Nat} {m m2 : MMState} {vmId : String} {e : Option String} :
      Reach n m → StopMachine m vmId = (m2, e) → Reach n m2
  | stopAll {n : Nat} {m : MMState} : Reach n m → Reach n (MMStop m)

/-- NATS request failures distinguished by DispatchWork and DeployWorkload. -/
inductive NatsErr
  | deadlineExceeded
  | transport (msg : String)
deriving Repr, DecidableEq

/-- Result of a Go call that can return a value, return an error, or panic. -/
inductive GoResult (α : Type)
  | ok (val : α)
  | err (msg : String)
  | panicked (msg : String)
deriving Repr, DecidableEq

/-- Fields of agentapi.WorkResponse: Accepted and the Message pointer. -/
structure WorkResponse where
  accepted : Bool
  message : Option String
deriving Repr, DecidableEq

/-- DispatchWork: marshal a WorkRequest (its payload is abstracted into the
request outcome), request agentint.vmid.workdispatch with a 1s timeout,
decode the reply, and reject with the message of the agent when Accepted is
false (dereferencing the Message pointer: nil panics); on acceptance stamp
the VM with the workload.  decodeResp stands for json.Unmarshal on the reply
bytes and returns the error of the codec on failure. -/
def DispatchWork (reqOutcome : Except NatsErr (List Nat))
    (decodeResp : List Nat → Except String WorkResponse)
    (vm : MMRunningFirecracker) (nsName : String) (request : RunRequest)
    (now : Nat) : GoResult MMRunningFirecracker :=
  match reqOutcome with
  | .error .deadlineExceeded =>
    .err "timed out waiting for acknowledgement of work dispatch"
  | .error (.transport m) => .err ("failed to submit request for work: " ++ m)
  | .ok data =>
    match decodeResp data with
    | .error e => .err e
    | .ok workResponse =>
      if !workResponse.accepted then
        match workResponse.message with
        | some msg => .err ("workload rejected by agent: " ++ msg)
        | none => .panicked "invalid memory address or nil pointer dereference"
      else
        .ok { vm with workloadStarted := now, nsName := nsName,
                      workloadSpec := some request }

end MM

namespace AgentClient

/-- Fields of agentapi.DeployResponse decoded by DeployWorkload; the spec
gives the wire shape accepted plus message. -/
structure DeployResponse where
  accepted : Bool
  message : Option String
deriving Repr, DecidableEq

/-- DeployWorkload: marshal the request, issue agentint.agentid.deploy with a
1s timeout, decode the reply (decodeResp stands for json.Unmarshal and
returns the codec error on failure), and return the decoded response; the
Accepted field is not inspected.  The Bool of the result records whether
workloadStartedAt was stamped. -/
def DeployWorkload (marshalOk : Bool)
    (reqOutcome : Except MM.NatsErr (List Nat))
    (decodeResp : List Nat → Except String DeployResponse) :
    MM.GoResult DeployResponse × Bool :=
  if !marshalOk then (.err "json marshal error", false)
  else
    match reqOutcome with
    | .error .deadlineExceeded =>
      (.err "timed out waiting for acknowledgement of workload deployment", false)
    | .error (.transport m) =>
      (.err ("failed to submit request for workload deployment: " ++ m), false)
    | .ok data =>
      match decodeResp data with
      | .error e => (.err e, false)
      | .ok deployResponse => (.ok deployResponse, true)

/-- Fields of agentapi.HandshakeRequest: the ID and Message pointers. -/
structure HandshakeRequest where
  id : Option String
  message : Option String
deriving Repr, DecidableEq

/-- Observable steps of one handleHandshake invocation. -/
inductive HsStep
  | errorLogged
  | infoLogged
  | responded
  | flagStored
  | successCb (id : String)
deriving Repr, DecidableEq

/-- How one handleHandshake invocation ends. -/
inductive HsOutcome
  | returned
  | panicked (msg : String)
deriving Repr, DecidableEq

/-- Trace, final handshakeReceived value and outcome of one handleHandshake
invocation. -/
structure HsRun where
  trace : List HsStep
  flag : Bool
  outcome : HsOutcome
deriving Repr, DecidableEq

/-- handleHandshake: json.Unmarshal the payload into a pointer that starts
nil; on a decode error the error log dereferences req.ID and req.Message with
req still nil, so the handler panics (the same happens when the payload
decodes to null, or to an object missing either field, since the logs always
dereference both pointers).  On the good path it logs, responds with the
empty HandshakeResponse, and only after a successful respond stores
handshakeReceived=true and invokes handshakeSucceeded; a failed respond is
logged and the handler returns with neither the store nor the callback. -/
def handleHandshake (decoded : Except String (Option HandshakeRequest))
    (respondOk : Bool) (flag0 : Bool) : HsRun :=
  match decoded with
  | .error _ =>
    { trace := [], flag := flag0,
      outcome := .panicked "invalid memory address or nil pointer dereference" }
  | .ok none =>
    { trace := [], flag := flag0,
      outcome := .panicked "invalid memory address or nil pointer dereference" }
  | .ok (some req) =>
    match req.id, req.message with
    | some i, some _ =>
      if respondOk then
        { trace := [.infoLogged, .responded, .flagStored, .successCb i],
          flag := true, outcome := .returned }
      else
        { trace := [.infoLogged, .errorLogged], flag := flag0,
          outcome := .returned }
    | _, _ =>
      { trace := [], flag := flag0,
        outcome := .panicked "invalid memory address or nil pointer dereference" }

/-- Program counter of the handshake watchdog goroutine after its timer has
expired: load the handshakeReceived atomic, then invoke handshakeTimedOut
when the load returned false. -/
inductive WdPC
  | load
  | fire (doFire : Bool)
  | done
deriving Repr, DecidableEq

/-- Program counter of the handshake handler goroutine on the good path:
respond, store handshakeReceived=true, invoke handshakeSucceeded. -/
inductive HdPC
  | respond
  | store
  | callback
  | done
deriving Repr, DecidableEq

/-- Externally visible callback and reply events of the two goroutines. -/
inductive CbEvent
  | responded
  | timeoutCb
  | successCb
deriving Repr, DecidableEq

/-- Joint state of the watchdog goroutine, the handler goroutine, the
handshakeReceived atomic and the event log. -/
structure SysState where
  wpc : WdPC
  hpc : HdPC
  flag : Bool
  events : List CbEvent
deriving Repr, DecidableEq

/-- One atomic step of the watchdog after its timer expired: the load of the
handshakeReceived atomic and the conditional handshakeTimedOut call are two
separate steps, exactly as in awaitHandshake. -/
def wdStep (c : SysState) : SysState :=
  match c.wpc with
  | .load => { c with wpc := .fire (!c.flag) }
  | .fire true => { c with wpc := .done, events := c.events ++ [.timeoutCb] }
  | .fire false => { c with wpc := .done }
  | .done => c

/-- One atomic step of the handler on the good path: respond, then the store
of the atomic, then the success callback, in the order of handleHandshake. -/
def hdStep (c : SysState) : SysState :=
  match c.hpc with
  | .respond => { c with hpc := .store, events := c.events ++ [.responded] }
  | .store => { c with hpc := .callback, flag := true }
  | .callback => { c with hpc := .done, events := c.events ++ [.successCb] }
  | .done => c

/-- Scheduler-chosen step: true runs the watchdog, false runs the handler. -/
def sysStep (c : SysState) (choice : Bool) : SysState :=
  if choice then wdStep c else hdStep c

/-- Initial state at the instant the watchdog timer expires, with the
handshake not yet received. -/
def sysInit : SysState :=
  { wpc := .load, hpc := .respond, flag := false, events := [] }

/-- Run the two goroutines under a schedule. -/
def runSys (sched : List Bool) : SysState :=
  sched.foldl sysStep sysInit

/-- Number of handshakeTimedOut invocations recorded so far. -/
def timeoutCount (c : SysState) : Nat :=
  c.events.count CbEvent.timeoutCb

/-- Number of handshakeSucceeded invocations recorded so far. -/
def successCount (c : SysState) : Nat :=
  c.events.count CbEvent.successCb

/-- Iterated watchdog-only execution. -/
def wdIter : Nat → SysState → SysState
  | 0, c => c
  | n + 1, c => wdIter n (wdStep c)

/-- State of the system once the watchdog has run alone to completion. -/
def sysTimedOut : SysState :=
  { wpc := .done, hpc := .respond, flag := false, events := [CbEvent.timeoutCb] }

end AgentClient

/-- Concrete warm VM used in the scenarios below. -/
def cVM : RunningFirecracker :=
  { vmmID := "vm-1", ip := "192.168.127.2", vcpuCount := 2, memSizeMib := 256,
    deployRequest := none, nsName := "", workloadStarted := 0 }

/-- Concrete deploy request used in the scenarios below. -/
def cReq : AgentWorkloadInfo :=
  { workloadName := some "echo", nsName := "default", workloadType := "wasm",
    totalBytes := 1024, essential := none }

/-- Concrete manager state with one warm VM registered and enqueued, as the
fill loop leaves it. -/
def cState : FCPM.PMState :=
  { closing := 0
    machinePoolSize := 2
    allVMs := [("vm-1", cVM)]
    poolVMs := [cVM]
    poolClosed := false
    stopMutexKeys := ["vm-1"]
    deployRequests := []
    t := { allocatedVCPU := 0, allocatedMemory := 0, vmCount := 1,
           workloadCount := 0, deployedBytes := 0 }
    shutdownIds := []
    teardownRuns := 0 }

/-- The state reached by a successful PrepareWorkload on cState. -/
def cPrepared : FCPM.PMState :=
  ((FCPM.PrepareWorkload cState "wl-1" cReq 7).getD (cState, none)).1

/-- A benign fill-loop environment in which every external call succeeds. -/
def cFillEnv : FCPM.FillEnv :=
  { ctxDone := false, uuid := .ok "vm-new", creds := .ok (),
    createVM := .ok (1, 256), ip := "192.168.127.3", seed := .ok (),
    setMeta := .ok () }

/-- A fillPool environment in which createAndStartVM fails. -/
def cMMFillFail : MM.MMFillEnv :=
  { ctxDone := false, createVM := .error () }

/-- A fill-loop environment in which only createAndStartVM fails. -/
def cFillEnvFail : FCPM.FillEnv :=
  { ctxDone := false, uuid := .ok "vm-new", creds := .ok (),
    createVM := .error (), ip := "", seed := .ok (), setMeta := .ok () }

/-- A reply codec that decodes to a rejected deploy response. -/
def cDecodeRejectedDeploy : List Nat → Except String AgentClient.DeployResponse :=
  fun _ => .ok { accepted := false, message := some "bad digest" }

/-- A reply codec that decodes to a rejected work response. -/
def cDecodeRejectedWork : List Nat → Except String MM.WorkResponse :=
  fun _ => .ok { accepted := false, message := some "bad digest" }

/-- Concrete machine-manager VM. -/
def cMMVM : MM.MMRunningFirecracker :=
  { vmmID := "vm-9", ip := "192.168.127.9", nsName := "", workloadStarted := 0,
    workloadSpec := none }

/-- Concrete run request for DispatchWork. -/
def cRunReq : RunRequest :=
  { workloadType := "wasm", workloadEnvironment := [] }

/-- Concrete well-formed handshake request. -/
def cHsReq : AgentClient.HandshakeRequest :=
  { id := some "vm-1", message := some "hello" }

/-- Pool invariant of the new process manager: the pool size is the
configured one and the warm channel never holds more than it. -/
def pmPoolInv (n : Nat) (s : FCPM.PMState) : Prop :=
  s.machinePoolSize = n ∧ s.poolVMs.length ≤ n

/-- Pool invariant of the older machine manager: the channel capacity is
pool size minus one and the buffer never exceeds it. -/
def mmPoolInv (n : Nat) (m : MM.MMState) : Prop :=
  m.warmCap = n - 1 ∧ m.warmVms.length ≤ m.warmCap

/-- Watchdog event invariant: at most one handshakeTimedOut call is ever
recorded, and none before the watchdog finishes. -/
def wdEvInv (c : AgentClient.SysState) : Prop :=
  AgentClient.timeoutCount c ≤ 1
  ∧ (c.wpc ≠ AgentClient.WdPC.done → AgentClient.timeoutCount c = 0)

theorem lookupA_updateA {α : Type} (l : List (String × α)) (k : String) (v w : α)
    (h : lookupA l k = some v) : lookupA (updateA l k w) k = some w := by
  induction l with
  | nil => simp [lookupA] at h
  | cons p t ih =>
    cases hk : (p.1 == k) with
    | true => simp [lookupA, updateA, hk]
    | false =>
      simp only [lookupA, hk, Bool.false_eq_true, if_false] at h
      simp only [updateA, List.map_cons, lookupA, hk, Bool.false_eq_true, if_false]
      exact ih h

theorem StopProcess_frame (s : FCPM.PMState) (wid : String) :
    (FCPM.StopProcess s wid).1.poolVMs = s.poolVMs
    ∧ (FCPM.StopProcess s wid).1.machinePoolSize = s.machinePoolSize
    ∧ (FCPM.StopProcess s wid).1.closing = s.closing
    ∧ (FCPM.StopProcess s wid).1.teardownRuns = s.teardownRuns
    ∧ (FCPM.StopProcess s wid).1.poolClosed = s.poolClosed := by
  unfold FCPM.StopProcess
  cases lookupA s.allVMs wid <;> simp

theorem foldStop_frame (l : List String) (s : FCPM.PMState) :
    (l.foldl (fun acc vmID => (FCPM.StopProcess acc vmID).1) s).poolVMs = s.poolVMs
    ∧ (l.foldl (fun acc vmID => (FCPM.StopProcess acc vmID).1) s).machinePoolSize
        = s.machinePoolSize
    ∧ (l.foldl (fun acc vmID => (FCPM.StopProcess acc vmID).1) s).closing = s.closing
    ∧ (l.foldl (fun acc vmID => (FCPM.StopProcess acc vmID).1) s).teardownRuns
        = s.teardownRuns := by
  induction l generalizing s with
  | nil => exact ⟨rfl, rfl, rfl, rfl⟩
  | cons x t ih =>
    simp only [List.foldl_cons]
    obtain ⟨h1, h2, h3, h4⟩ := ih ((FCPM.StopProcess s x).1)
    obtain ⟨g1, g2, g3, g4, g5⟩ := StopProcess_frame s x
    exact ⟨h1.trans g1, h2.trans g2, h3.trans g3, h4.trans g4⟩

theorem teardown_frame (s : FCPM.PMState) :
    (FCPM.teardown s).poolVMs = s.poolVMs
    ∧ (FCPM.teardown s).machinePoolSize = s.machinePoolSize
    ∧ (FCPM.teardown s).closing = s.closing
    ∧ (FCPM.teardown s).teardownRuns = s.teardownRuns + 1 := by
  unfold FCPM.teardown
  obtain ⟨h1, h2, h3, h4⟩ := foldStop_frame
    (({ s with poolClosed := true, teardownRuns := s.teardownRuns + 1} :
        FCPM.PMState).allVMs.map Prod.fst)
    { s with poolClosed := true, teardownRuns := s.teardownRuns + 1 }
  exact ⟨h1, h2, h3, h4⟩

theorem Stop_frame (s : FCPM.PMState) :
    (FCPM.Stop s).poolVMs = s.poolVMs
    ∧ (FCPM.Stop s).machinePoolSize = s.machinePoolSize := by
  unfold FCPM.Stop
  split
  · exact ⟨(teardown_frame _).1, (teardown_frame _).2.1⟩
  · exact ⟨rfl, rfl⟩

theorem FillIteration_inv {n : Nat} {s s2 : FCPM.PMState} {env : FCPM.FillEnv}
    {r : FCPM.FillResult} (h : FCPM.FillIteration s env = (s2, r))
    (hI : pmPoolInv n s) : pmPoolInv n s2 := by
  unfold FCPM.FillIteration at h
  split at h
  · cases h; exact hI
  · split at h
    · cases h; exact hI
    · split at h
      · cases h; exact hI
      · next hfull =>
        cases hfa : FCPM.fillAttempt env with
        | none => rw [hfa] at h; cases h; exact hI
        | some vm =>
          rw [hfa] at h
          cases h
          refine ⟨hI.1, ?_⟩
          have hne : s.poolVMs.length ≠ s.machinePoolSize := by
            simpa using hfull
          have hle := hI.2
          have heq := hI.1
          simp only [List.length_append, List.length_cons, List.length_nil]
          omega

theorem PrepareWorkload_inv {n : Nat} {s s2 : FCPM.PMState} {wid : String}
    {req : AgentWorkloadInfo} {now : Nat} {e : Option String}
    (h : FCPM.PrepareWorkload s wid req now = some (s2, e))
    (hI : pmPoolInv n s) : pmPoolInv n s2 := by
  unfold FCPM.PrepareWorkload at h
  split at h
  · next hnil =>
    split at h
    · simp only [Option.some.injEq, Prod.mk.injEq] at h
      obtain ⟨h1, -⟩ := h
      exact h1 ▸ hI
    · cases h
  · next vm rest heq =>
    simp only [Option.some.injEq, Prod.mk.injEq] at h
    obtain ⟨h1, -⟩ := h
    subst h1
    refine ⟨hI.1, ?_⟩
    have h2 := hI.2
    rw [heq] at h2
    simp only [List.length_cons] at h2
    show rest.length ≤ n
    omega

theorem pm_reach_inv {n : Nat} {s : FCPM.PMState} (h : FCPM.Reach n s) :
    pmPoolInv n s := by
  induction h with
  | init => exact ⟨rfl, by simp [FCPM.NewFirecrackerProcessManager]⟩
  | @fill s s2 env r hr hf ih => exact FillIteration_inv hf ih
  | @prep s s2 wid req now e hr hp ih => exact PrepareWorkload_inv hp ih
  | @stopOne s s2 wid e hr hs ih =>
    have h1 : (FCPM.StopProcess s wid).1 = s2 := by rw [hs]
    obtain ⟨g1, g2, -, -, -⟩ := StopProcess_frame s wid
    rw [h1] at g1 g2
    exact ⟨g2.trans ih.1, by rw [g1]; exact ih.2⟩
  | @lame s hr ih => exact ⟨ih.1, ih.2⟩
  | @stopAll s hr ih =>
    obtain ⟨g1, g2⟩ := Stop_frame s
    exact ⟨g2.trans ih.1, by rw [g1]; exact ih.2⟩

theorem mm_fill_inv {n : Nat} {m m2 : MM.MMState} {env : MM.MMFillEnv}
    {r : MM.MMFillResult} (h : MM.fillPoolIteration m env = (m2, r))
    (hI : mmPoolInv n m) : mmPoolInv n m2 := by
  unfold MM.fillPoolIteration at h
  split at h
  · cases h; exact hI
  · split at h
    · cases h; exact hI
    · split at h
      · next hlt =>
        cases h
        refine ⟨hI.1, ?_⟩
        simp only [List.length_append, List.length_cons, List.length_nil]
        omega
      · cases h; exact hI

theorem mm_reach_inv {n : Nat} {m : MM.MMState} (h : MM.Reach n m) :
    mmPoolInv n m := by
  induction h with
  | init hps => exact ⟨rfl, by simp [MM.NewMachineManager]⟩
  | @fill m m2 env r hr hf ih => exact mm_fill_inv hf ih
  | @take m m2 vm hr ht ih =>
    unfold MM.TakeFromPool at ht
    split at ht
    · cases ht
    · next v rest hw =>
      simp only [Option.some.injEq, Prod.mk.injEq] at ht
      obtain ⟨h1, -⟩ := ht
      subst h1
      refine ⟨ih.1, ?_⟩
      have h2 := ih.2
      rw [hw] at h2
      simp only [List.length_cons] at h2
      show rest.length ≤ m.warmCap
      omega
  | @stopOne m m2 vmId e hr hs ih =>
    have h1 : (MM.StopMachine m vmId).1 = m2 := by rw [hs]
    unfold MM.StopMachine at h1
    split at h1
    · rw [← h1]; exact ⟨ih.1, ih.2⟩
    · rw [← h1]; exact ⟨ih.1, ih.2⟩
  | @stopAll m hr ih => exact ⟨ih.1, by simp [MM.MMStop]⟩

theorem timeoutCount_hdStep (c : AgentClient.SysState) :
    AgentClient.timeoutCount (AgentClient.hdStep c) = AgentClient.timeoutCount c := by
  unfold AgentClient.hdStep AgentClient.timeoutCount
  cases c.hpc <;> simp [List.count_append]

theorem wdEvInv_step (c : AgentClient.SysState) (b : Bool) (h : wdEvInv c) :
    wdEvInv (AgentClient.sysStep c b) := by
  obtain ⟨h1, h2⟩ := h
  cases b with
  | true =>
    show wdEvInv (AgentClient.wdStep c)
    unfold AgentClient.wdStep
    cases hw : c.wpc with
    | load =>
      have h0 : AgentClient.timeoutCount c = 0 :=
        h2 (by rw [hw]; exact fun hx => AgentClient.WdPC.noConfusion hx)
      exact ⟨h1, fun _ => h0⟩
    | fire doFire =>
      have h0 : AgentClient.timeoutCount c = 0 :=
        h2 (by rw [hw]; exact fun hx => AgentClient.WdPC.noConfusion hx)
      cases doFire with
      | true =>
        constructor
        · show (c.events ++ [AgentClient.CbEvent.timeoutCb]).count
              AgentClient.CbEvent.timeoutCb ≤ 1
          rw [List.count_append]
          have h0e : c.events.count AgentClient.CbEvent.timeoutCb = 0 := h0
          rw [h0e]
          decide
        · exact fun hx => absurd rfl hx
      | false => exact ⟨h1, fun hx => absurd rfl hx⟩
    | done => exact ⟨h1, h2⟩
  | false =>
    show wdEvInv (AgentClient.hdStep c)
    have hc := timeoutCount_hdStep c
    have hw : (AgentClient.hdStep c).wpc = c.wpc := by
      unfold AgentClient.hdStep
      cases c.hpc <;> rfl
    exact ⟨hc ▸ h1, fun hx => hc ▸ h2 (hw ▸ hx)⟩

theorem wdEvInv_foldl (sched : List Bool) (c : AgentClient.SysState)
    (h : wdEvInv c) : wdEvInv (sched.foldl AgentClient.sysStep c) := by
  induction sched generalizing c with
  | nil => exact h
  | cons b t ih => exact ih _ (wdEvInv_step c b h)

theorem timeoutCount_le_one (sched : List Bool) :
    AgentClient.timeoutCount (AgentClient.runSys sched) ≤ 1 := by
  have h := wdEvInv_foldl sched AgentClient.sysInit
    (⟨by decide, fun _ => by decide⟩)
  exact h.1

theorem foldl_all_true (sched : List Bool) (c : AgentClient.SysState)
    (h : ∀ b ∈ sched, b = true) :
    sched.foldl AgentClient.sysStep c = AgentClient.wdIter sched.length c := by
  induction sched generalizing c with
  | nil => rfl
  | cons b t ih =>
    have hb : b = true := h b (by simp)
    subst hb
    simp only [List.foldl_cons, List.length_cons]
    show t.foldl AgentClient.sysStep (AgentClient.wdStep c)
        = AgentClient.wdIter (t.length + 1) c
    rw [show AgentClient.wdIter (t.length + 1) c
        = AgentClient.wdIter t.length (AgentClient.wdStep c) from rfl]
    exact ih _ (fun x hx => h x (by simp [hx]))

theorem wdIter_fixed (n : Nat) :
    AgentClient.wdIter n AgentClient.sysTimedOut = AgentClient.sysTimedOut := by
  induction n with
  | zero => rfl
  | succ k ih =>
    show AgentClient.wdIter k (AgentClient.wdStep AgentClient.sysTimedOut)
        = AgentClient.sysTimedOut
    rw [show AgentClient.wdStep AgentClient.sysTimedOut
        = AgentClient.sysTimedOut from rfl]
    exact ih

theorem wdIter_ge_two (n : Nat) :
    AgentClient.wdIter (n + 2) AgentClient.sysInit = AgentClient.sysTimedOut := by
  show AgentClient.wdIter n
      (AgentClient.wdStep (AgentClient.wdStep AgentClient.sysInit))
      = AgentClient.sysTimedOut
  rw [show AgentClient.wdStep (AgentClient.wdStep AgentClient.sysInit)
      = AgentClient.sysTimedOut from rfl]
  exact wdIter_fixed n

theorem successCount_all_true (sched : List Bool) (h : ∀ b ∈ sched, b = true) :
    AgentClient.successCount (AgentClient.runSys sched) = 0 := by
  unfold AgentClient.runSys
  rw [foldl_all_true sched _ h]
  rcases hlen : sched.length with _ | k
  · rfl
  · rcases k with _ | j
    · rfl
    · rw [show j + 1 + 1 = j + 2 from rfl, wdIter_ge_two]
      rfl

theorem StopN_succ (n : Nat) (s : FCPM.PMState) :
    FCPM.StopN (n + 1) s = FCPM.Stop (FCPM.StopN n s) := rfl

theorem Stop_of_zero (s : FCPM.PMState) (h : s.closing = 0) :
    FCPM.Stop s = FCPM.teardown { s with closing := 1 } := by
  unfold FCPM.Stop
  rw [h]
  rfl

theorem Stop_closing_of_zero (s : FCPM.PMState) (h : s.closing = 0) :
    (FCPM.Stop s).closing = 1 := by
  rw [Stop_of_zero s h]
  rw [(teardown_frame { s with closing := 1 }).2.2.1]

theorem Stop_teardownRuns_of_zero (s : FCPM.PMState) (h : s.closing = 0) :
    (FCPM.Stop s).teardownRuns = s.teardownRuns + 1 := by
  rw [Stop_of_zero s h]
  rw [(teardown_frame { s with closing := 1 }).2.2.2]

theorem Stop_of_mid (s : FCPM.PMState) (h1 : 1 ≤ s.closing)
    (h2 : s.closing < FCPM.UINT32MOD) :
    FCPM.Stop s = { s with closing := (s.closing + 1) % FCPM.UINT32MOD } := by
  unfold FCPM.Stop
  rw [if_neg]
  simp only [beq_iff_eq, FCPM.UINT32MOD] at h2 ⊢
  omega

theorem StopN_wrap (s : FCPM.PMState) (h0 : s.closing = 0) (n : Nat)
    (h1 : 1 ≤ n) (h2 : n ≤ FCPM.UINT32MOD) :
    FCPM.StopN n s = { FCPM.Stop s with closing := n % FCPM.UINT32MOD } := by
  induction n with
  | zero => omega
  | succ k ih =>
    rcases Nat.eq_or_lt_of_le h1 with hk | hk
    · have hk0 : k = 0 := by omega
      subst hk0
      rw [StopN_succ, show FCPM.StopN 0 s = s from rfl]
      have hc := Stop_closing_of_zero s h0
      have hm : 1 % FCPM.UINT32MOD = 1 := by decide
      rw [hm, ← hc]
    · have hk1 : 1 ≤ k := by omega
      have hk2 : k ≤ FCPM.UINT32MOD := by omega
      have hklt : k < FCPM.UINT32MOD := by omega
      rw [StopN_succ, ih hk1 hk2]
      have hkm : k % FCPM.UINT32MOD = k := Nat.mod_eq_of_lt hklt
      rw [hkm]
      rw [Stop_of_mid { FCPM.Stop s with closing := k } hk1 hklt]



/-- Claim C1, counterexample.  A successful PrepareWorkload leaves the
workload counter and the deployed-byte counter untouched (they are 0 before
and after, although the request carries 1024 bytes), and the matching
StopProcess then decrements both, so the pair drifts by -1 workloads and
-1024 bytes instead of the zero net change the claim requires. -/
theorem C1_counterexample :
    FCPM.PrepareWorkload cState "wl-1" cReq 7 = some (cPrepared, none)
    ∧ ¬ cPrepared.t.workloadCount = cState.t.workloadCount + 1
    ∧ ¬ cPrepared.t.deployedBytes = cState.t.deployedBytes + cReq.totalBytes
    ∧ (FCPM.StopProcess cPrepared "vm-1").2 = none
    ∧ ¬ (FCPM.StopProcess cPrepared "vm-1").1.t.workloadCount
        = cState.t.workloadCount
    ∧ ¬ (FCPM.StopProcess cPrepared "vm-1").1.t.deployedBytes
        = cState.t.deployedBytes := by
  decide

/-- Claim C1, amended.  A successful PrepareWorkload on a warm VM increases
the vCPU and memory counters by exactly the configured machine resources of
the taken VM and changes no other counter; the matching StopProcess brings
vCPU and memory back to their original values (zero net drift for those two),
while additionally decrementing the VM counter by one, the workload counter
by one and the deployed-byte counter by the total bytes of the request, whose
increments this component never performed. -/
theorem C1_amended (s s1 : FCPM.PMState) (vm : RunningFirecracker)
    (rest : List RunningFirecracker) (req : AgentWorkloadInfo) (wid : String)
    (now : Nat)
    (hpool : s.poolVMs = vm :: rest)
    (hall : lookupA s.allVMs vm.vmmID = some vm)
    (hprep : FCPM.PrepareWorkload s wid req now = some (s1, none)) :
    s1.t.allocatedVCPU = s.t.allocatedVCPU + vm.vcpuCount
    ∧ s1.t.allocatedMemory = s.t.allocatedMemory + vm.memSizeMib
    ∧ s1.t.workloadCount = s.t.workloadCount
    ∧ s1.t.deployedBytes = s.t.deployedBytes
    ∧ s1.t.vmCount = s.t.vmCount
    ∧ (FCPM.StopProcess s1 vm.vmmID).2 = none
    ∧ (FCPM.StopProcess s1 vm.vmmID).1.t.allocatedVCPU = s.t.allocatedVCPU
    ∧ (FCPM.StopProcess s1 vm.vmmID).1.t.allocatedMemory = s.t.allocatedMemory
    ∧ (FCPM.StopProcess s1 vm.vmmID).1.t.workloadCount = s.t.workloadCount - 1
    ∧ (FCPM.StopProcess s1 vm.vmmID).1.t.deployedBytes
        = s.t.deployedBytes - req.totalBytes
    ∧ (FCPM.StopProcess s1 vm.vmmID).1.t.vmCount = s.t.vmCount - 1 := by
  unfold FCPM.PrepareWorkload at hprep
  split at hprep
  · next heq => rw [hpool] at heq; cases heq
  · next vm2 rest2 heq =>
    rw [hpool] at heq
    injection heq with hv hr
    subst hv
    subst hr
    simp only [Option.some.injEq, Prod.mk.injEq] at hprep
    obtain ⟨hs1, -⟩ := hprep
    subst hs1
    have hlook : lookupA
        (updateA s.allVMs vm.vmmID
          { vm with deployRequest := some req, nsName := req.nsName,
                    workloadStarted := now }) vm.vmmID
        = some { vm with deployRequest := some req, nsName := req.nsName,
                         workloadStarted := now } :=
      lookupA_updateA s.allVMs vm.vmmID vm _ hall
    refine ⟨rfl, rfl, rfl, rfl, rfl, ?_, ?_, ?_, ?_, ?_, ?_⟩ <;>
      simp only [FCPM.StopProcess, hlook] <;> omega

/-- Claim C1, witness: the amended theorem at the concrete one-VM state. -/
theorem C1_witness :
    cPrepared.t.allocatedVCPU = cState.t.allocatedVCPU + cVM.vcpuCount
    ∧ cPrepared.t.allocatedMemory = cState.t.allocatedMemory + cVM.memSizeMib
    ∧ cPrepared.t.workloadCount = cState.t.workloadCount
    ∧ cPrepared.t.deployedBytes = cState.t.deployedBytes
    ∧ cPrepared.t.vmCount = cState.t.vmCount
    ∧ (FCPM.StopProcess cPrepared cVM.vmmID).2 = none
    ∧ (FCPM.StopProcess cPrepared cVM.vmmID).1.t.allocatedVCPU
        = cState.t.allocatedVCPU
    ∧ (FCPM.StopProcess cPrepared cVM.vmmID).1.t.allocatedMemory
        = cState.t.allocatedMemory
    ∧ (FCPM.StopProcess cPrepared cVM.vmmID).1.t.workloadCount
        = cState.t.workloadCount - 1
    ∧ (FCPM.StopProcess cPrepared cVM.vmmID).1.t.deployedBytes
        = cState.t.deployedBytes - cReq.totalBytes
    ∧ (FCPM.StopProcess cPrepared cVM.vmmID).1.t.vmCount
        = cState.t.vmCount - 1 :=
  C1_amended cState cPrepared cVM [] cReq "wl-1" 7 (by rfl) (by decide) (by decide)

/-- Claim C2, counterexample.  Under the schedule in which the watchdog loads
the flag (still false at timer expiry), the handler then responds, stores the
flag and fires on_handshake_success, and the watchdog finally fires, the run
ends with on_handshake_timeout recorded after on_handshake_success: the
watchdog fires after the success callback, and a success callback fires even
though the flag was false when the timer expired.  There is no compare-and-set
on the atomic, only a load followed by a separate call. -/
theorem C2_counterexample :
    (AgentClient.runSys [true, false, false, false, true]).events
      = [AgentClient.CbEvent.responded, AgentClient.CbEvent.successCb,
         AgentClient.CbEvent.timeoutCb] := by
  decide

/-- Claim C2, amended.  When the handler takes no step (the guest never
handshakes), a watchdog that runs to completion fires exactly one
on_handshake_timeout and no on_handshake_success; and under every schedule
the watchdog fires at most one timeout callback.  The exclusion claimed by
the spec does not hold: the watchdog only performs an atomic load, so the
timeout callback can fire after on_handshake_success (see the
counterexample). -/
theorem C2_amended (wsched sched : List Bool)
    (hall : ∀ b ∈ wsched, b = true) (hlen : 2 ≤ wsched.length) :
    AgentClient.timeoutCount (AgentClient.runSys wsched) = 1
    ∧ AgentClient.successCount (AgentClient.runSys wsched) = 0
    ∧ AgentClient.timeoutCount (AgentClient.runSys sched) ≤ 1 := by
  refine ⟨?_, successCount_all_true wsched hall, timeoutCount_le_one sched⟩
  unfold AgentClient.runSys
  rw [foldl_all_true wsched _ hall]
  obtain ⟨k, hk⟩ : ∃ k, wsched.length = k + 2 :=
    ⟨wsched.length - 2, by omega⟩
  rw [hk, wdIter_ge_two]
  decide

/-- Claim C2, witness: the amended theorem for a two-step watchdog-only
schedule, with the counterexample schedule as the arbitrary one. -/
theorem C2_witness :
    AgentClient.timeoutCount (AgentClient.runSys [true, true]) = 1
    ∧ AgentClient.successCount (AgentClient.runSys [true, true]) = 0
    ∧ AgentClient.timeoutCount
        (AgentClient.runSys [true, false, false, false, true]) ≤ 1 :=
  C2_amended [true, true] [true, false, false, false, true]
    (by decide) (by decide)

/-- Claim C3, counterexample.  When the guest answers with accepted=false and
message "bad digest", AgentClient.DeployWorkload returns the decoded response
together with nil error (the Bool records that workloadStartedAt was even
stamped): the rejection is returned as a success, not as an error carrying
the message. -/
theorem C3_counterexample :
    AgentClient.DeployWorkload true (.ok [0]) cDecodeRejectedDeploy
      = (.ok { accepted := false, message := some "bad digest" }, true) := by
  decide

/-- Claim C3, amended.  The older MachineManager.DispatchWork surfaces a
rejected dispatch as an error carrying the message of the agent, while
AgentClient.DeployWorkload returns the rejected response to its caller as a
successful result (with workload_started_at recorded), leaving the Accepted
check to layers above. -/
theorem C3_amended (data : List Nat)
    (decodeD : List Nat → Except String AgentClient.DeployResponse)
    (decodeW : List Nat → Except String MM.WorkResponse) (msg : String)
    (vm : MM.MMRunningFirecracker) (ns : String) (req : RunRequest) (now : Nat)
    (hD : decodeD data = .ok { accepted := false, message := some msg })
    (hW : decodeW data = .ok { accepted := false, message := some msg }) :
    AgentClient.DeployWorkload true (.ok data) decodeD
      = (.ok { accepted := false, message := some msg }, true)
    ∧ MM.DispatchWork (.ok data) decodeW vm ns req now
      = .err ("workload rejected by agent: " ++ msg) := by
  constructor
  · simp [AgentClient.DeployWorkload, hD]
  · simp [MM.DispatchWork, hW]

/-- Claim C3, witness: the amended theorem at the "bad digest" reply. -/
theorem C3_witness :
    AgentClient.DeployWorkload true (.ok [0]) cDecodeRejectedDeploy
      = (.ok { accepted := false, message := some "bad digest" }, true)
    ∧ MM.DispatchWork (.ok [0]) cDecodeRejectedWork cMMVM "default" cRunReq 5
      = .err ("workload rejected by agent: " ++ "bad digest") :=
  C3_amended [0] cDecodeRejectedDeploy cDecodeRejectedWork "bad digest"
    cMMVM "default" cRunReq 5 (by rfl) (by rfl)

/-- Claim C4, counterexample.  After EnterLameDuck on a state holding one
deployed workload, a fill-loop iteration with a healthy environment still
creates and enqueues a fresh VM: EnterLameDuck does not touch the closing
flag, so the loop keeps refilling the warm pool. -/
theorem C4_counterexample :
    (FCPM.FillIteration (FCPM.EnterLameDuck cPrepared) cFillEnv).2
      = FCPM.FillResult.enqueued "vm-new"
    ∧ (FCPM.FillIteration (FCPM.EnterLameDuck cPrepared) cFillEnv).1.poolVMs.length
      = (FCPM.EnterLameDuck cPrepared).poolVMs.length + 1 := by
  decide

/-- Claim C4, amended.  EnterLameDuck marks every stored deploy request
non-essential and changes nothing else: the closing flag, the warm channel
and its closed bit, and the registered VM handles (so existing workloads stay
addressable) are untouched, and the set of request keys is preserved.  In
particular the fill loop is not stopped and keeps refilling, since its only
exit conditions are the closing flag and the root context. -/
theorem C4_amended (s : FCPM.PMState) (p : String × AgentWorkloadInfo)
    (hp : p ∈ (FCPM.EnterLameDuck s).deployRequests) :
    p.2.essential = some false
    ∧ (FCPM.EnterLameDuck s).closing = s.closing
    ∧ (FCPM.EnterLameDuck s).poolClosed = s.poolClosed
    ∧ (FCPM.EnterLameDuck s).poolVMs = s.poolVMs
    ∧ (FCPM.EnterLameDuck s).allVMs = s.allVMs
    ∧ (FCPM.EnterLameDuck s).deployRequests.map Prod.fst
        = s.deployRequests.map Prod.fst := by
  refine ⟨?_, rfl, rfl, rfl, rfl, ?_⟩
  · unfold FCPM.EnterLameDuck at hp
    rcases List.mem_map.mp hp with ⟨q, hq, rfl⟩
    rfl
  · unfold FCPM.EnterLameDuck
    simp [List.map_map, Function.comp]

/-- Claim C4, witness: the amended theorem at the prepared one-workload
state. -/
theorem C4_witness :
    (("vm-1", { cReq with essential := some false }) :
        String × AgentWorkloadInfo).2.essential = some false
    ∧ (FCPM.EnterLameDuck cPrepared).closing = cPrepared.closing
    ∧ (FCPM.EnterLameDuck cPrepared).poolClosed = cPrepared.poolClosed
    ∧ (FCPM.EnterLameDuck cPrepared).poolVMs = cPrepared.poolVMs
    ∧ (FCPM.EnterLameDuck cPrepared).allVMs = cPrepared.allVMs
    ∧ (FCPM.EnterLameDuck cPrepared).deployRequests.map Prod.fst
        = cPrepared.deployRequests.map Prod.fst :=
  C4_amended cPrepared ("vm-1", { cReq with essential := some false })
    (by decide)

/-- Claim C5, counterexample.  In the older MachineManager.fillPool, a
createAndStartVM failure does not continue the loop: the iteration panics
(the source logs Aborting and calls panic(err) inside the fillPool goroutine,
which terminates the node process). -/
theorem C5_counterexample :
    MM.fillPoolIteration (MM.NewMachineManager 2) cMMFillFail
      = (MM.NewMachineManager 2, MM.MMFillResult.panicked) := by
  decide

/-- Claim C5, amended.  In FirecrackerProcessManager.Start, a createAndStartVM
failure during a live, non-full, non-cancelled iteration leaves the state
unchanged and yields the skipped outcome, after which the loop proceeds to
the next iteration (only the exited outcome ends the loop); the older
MachineManager.fillPool instead panics on the same failure, aborting the loop
and the node. -/
theorem C5_amended (s : FCPM.PMState) (env : FCPM.FillEnv) (u : String)
    (hclosing : s.closing = 0) (hctx : env.ctxDone = false)
    (hfull : (s.poolVMs.length == s.machinePoolSize) = false)
    (huuid : env.uuid = .ok u) (hcreds : env.creds = .ok ())
    (hcreate : env.createVM = .error ()) :
    FCPM.FillIteration s env = (s, FCPM.FillResult.skipped) := by
  have hatt : FCPM.fillAttempt env = none := by
    simp [FCPM.fillAttempt, huuid, hcreds, hcreate]
  simp [FCPM.FillIteration, hclosing, hctx, hfull, hatt]

/-- Claim C5, witness: the amended theorem at the one-warm-VM state with a
failing VMM driver. -/
theorem C5_witness :
    FCPM.FillIteration cState cFillEnvFail = (cState, FCPM.FillResult.skipped) :=
  C5_amended cState cFillEnvFail "vm-new" rfl rfl (by decide) rfl rfl rfl

/-- Claim C6.  In every state reachable by fill iterations, PrepareWorkload,
StopProcess, EnterLameDuck and Stop, the warm channel of the new process
manager holds between 0 and pool-size VMs; likewise, the warm channel of the
older machine manager (whose buffer capacity is pool size minus one) stays
within the same bound under its fill, take and stop operations. -/
theorem C6_bound (n : Nat) (s : FCPM.PMState) (m : MM.MMState)
    (hs : FCPM.Reach n s) (hm : MM.Reach n m) :
    0 ≤ s.poolVMs.length ∧ s.poolVMs.length ≤ n
    ∧ 0 ≤ m.warmVms.length ∧ m.warmVms.length ≤ n := by
  obtain ⟨h1, h2⟩ := pm_reach_inv hs
  obtain ⟨g1, g2⟩ := mm_reach_inv hm
  exact ⟨Nat.zero_le _, h2, Nat.zero_le _, by omega⟩

/-- Claim C6, witness: the bound at the freshly constructed managers. -/
theorem C6_witness :
    0 ≤ (FCPM.NewFirecrackerProcessManager 1).poolVMs.length
    ∧ (FCPM.NewFirecrackerProcessManager 1).poolVMs.length ≤ 1
    ∧ 0 ≤ (MM.NewMachineManager 1).warmVms.length
    ∧ (MM.NewMachineManager 1).warmVms.length ≤ 1 :=
  C6_bound 1 _ _ (FCPM.Reach.init 1) (MM.Reach.init 1 (by decide))

/-- Claim C7, counterexample.  Because Stop counts calls in a uint32 that
wraps at 2^32, call number 2^32 + 1 sees the incremented counter equal to 1
again and re-enters the teardown body: after 2^32 + 1 calls the body has run
twice, so it does not run at most once for any number of calls (in Go that
second entry would also panic on closing the already-closed warm channel). -/
theorem C7_counterexample :
    (FCPM.StopN (FCPM.UINT32MOD + 1)
        (FCPM.NewFirecrackerProcessManager 1)).teardownRuns = 2 := by
  rw [StopN_succ]
  rw [StopN_wrap (FCPM.NewFirecrackerProcessManager 1) rfl FCPM.UINT32MOD
    (by decide) (le_refl _)]
  decide

/-- Claim C7, amended.  Starting from a manager whose closing counter is
zero, the first Stop call runs the teardown body exactly once, and any
sequence of up to 2^32 calls leaves the state exactly as after the first call
except for the wrapped call counter, so every later call in that range is a
no-op; every call returns nil.  Beyond 2^32 calls the uint32 wraps and the
teardown body runs again (see the counterexample). -/
theorem C7_amended (s : FCPM.PMState) (n : Nat) (h0 : s.closing = 0)
    (h1 : 1 ≤ n) (h2 : n ≤ FCPM.UINT32MOD) :
    FCPM.StopN n s = { FCPM.Stop s with closing := n % FCPM.UINT32MOD }
    ∧ (FCPM.Stop s).teardownRuns = s.teardownRuns + 1 :=
  ⟨StopN_wrap s h0 n h1 h2, Stop_teardownRuns_of_zero s h0⟩

/-- Claim C7, witness: two Stop calls on a fresh manager. -/
theorem C7_witness :
    FCPM.StopN 2 (FCPM.NewFirecrackerProcessManager 1)
      = { FCPM.Stop (FCPM.NewFirecrackerProcessManager 1) with
          closing := 2 % FCPM.UINT32MOD }
    ∧ (FCPM.Stop (FCPM.NewFirecrackerProcessManager 1)).teardownRuns
      = (FCPM.NewFirecrackerProcessManager 1).teardownRuns + 1 :=
  C7_amended (FCPM.NewFirecrackerProcessManager 1) 2 rfl (by decide) (by decide)

/-- Claim C8.  StopProcess on an unregistered id returns the not-found error
and the state completely unchanged: no shutdown is recorded, no map entry is
removed and no counter moves; the same holds for StopMachine of the older
manager. -/
theorem C8_notfound (s : FCPM.PMState) (m : MM.MMState) (wid : String)
    (hs : lookupA s.allVMs wid = none) (hm : lookupA m.allVms wid = none) :
    FCPM.StopProcess s wid = (s, some ("failed to stop machine " ++ wid))
    ∧ MM.StopMachine m wid = (m, some "no such workload") := by
  constructor
  · simp [FCPM.StopProcess, hs]
  · simp [MM.StopMachine, hm]

/-- Claim C8, witness: stopping an unknown id on fresh managers. -/
theorem C8_witness :
    FCPM.StopProcess (FCPM.NewFirecrackerProcessManager 1) "ghost"
      = (FCPM.NewFirecrackerProcessManager 1,
         some ("failed to stop machine " ++ "ghost"))
    ∧ MM.StopMachine (MM.NewMachineManager 1) "ghost"
      = (MM.NewMachineManager 1, some "no such workload") :=
  C8_notfound (FCPM.NewFirecrackerProcessManager 1) (MM.NewMachineManager 1)
    "ghost" rfl rfl

/-- Claim C9.  For a decoded handshake request carrying its id and message,
the handler responds before storing handshake_received and before invoking
on_handshake_success (the successful trace is exactly log, respond, store,
callback in that order); and when sending the response fails, the handler
returns with the flag unchanged and neither the store nor the callback
performed. -/
theorem C9_order (req : AgentClient.HandshakeRequest) (i msg : String)
    (flag0 : Bool) (hid : req.id = some i) (hmsg : req.message = some msg) :
    AgentClient.handleHandshake (.ok (some req)) true flag0
      = { trace := [.infoLogged, .responded, .flagStored, .successCb i],
          flag := true, outcome := .returned }
    ∧ AgentClient.handleHandshake (.ok (some req)) false flag0
      = { trace := [.infoLogged, .errorLogged], flag := flag0,
          outcome := .returned } := by
  constructor <;> simp [AgentClient.handleHandshake, hid, hmsg]

/-- Claim C9, witness: the handler on the concrete handshake request, with a
successful and with a failing respond. -/
theorem C9_witness :
    AgentClient.handleHandshake (.ok (some cHsReq)) true false
      = { trace := [.infoLogged, .responded, .flagStored, .successCb "vm-1"],
          flag := true, outcome := .returned }
    ∧ AgentClient.handleHandshake (.ok (some cHsReq)) false false
      = { trace := [.infoLogged, .errorLogged], flag := false,
          outcome := .returned } :=
  C9_order cHsReq "vm-1" "hello" false (by rfl) (by rfl)

/-- Claim C10.  Whenever the handshake payload fails JSON unmarshalling, the
handler reaches the error log that dereferences the still-nil request
pointer, so it panics with a nil dereference instead of returning after
logging: an undecodable guest-supplied handshake payload crashes the handler
rather than being rejected cleanly. -/
theorem C10_panic (e : String) (respondOk flag0 : Bool) :
    AgentClient.handleHandshake (.error e) respondOk flag0
      = { trace := [], flag := flag0,
          outcome := .panicked "invalid memory address or nil pointer dereference" } :=
  rfl
